import Mathlib

/-!
Verification development for the RFC retrieval service
(src/services/rfcService.ts).

The service fetches an RFC in HTML or plain-text form and normalizes it
into a canonical document model.  We give a shallow embedding of the
data model (RfcMetadata / RfcContent), of the two parsing pipelines
(parseHtmlRfc over a DOM tree, parseTxtRfc over raw text), and of the
fetch orchestrator (fetchRfc) with its per-identifier cache, and prove
properties of these embeddings.

The JavaScript regular expressions used by parseTxtRfc are embedded as
explicit backtracking matchers with the standard leftmost-match,
greedy/lazy backtracking semantics of the JS regex engine.
-/

namespace Rfc

/-! ## Canonical document model (interfaces RfcMetadata / RfcContent) -/

structure RfcMetadata where
  number : String
  title : String
  authors : List String
  date : String
  status : String
  abstract : String
  url : String
deriving DecidableEq, Repr

structure RfcSubsection where
  title : String
  content : String
deriving DecidableEq, Repr

structure RfcSection where
  title : String
  content : String
  /-- In the source, the subsections property is set to the collected list
  when it is non-empty and to undefined otherwise; we model undefined as
  none. -/
  subsections : Option (List RfcSubsection)
deriving DecidableEq, Repr

structure RfcContent where
  metadata : RfcMetadata
  sections : List RfcSection
  fullText : String
deriving DecidableEq, Repr

/-! ## JavaScript character classes and string primitives -/

/-- Character class of the JS regex token backslash-s (whitespace), which is
also the set trimmed by String.prototype.trim: tab, line feed, vertical tab,
form feed, carriage return, space, no-break space, BOM and the Unicode
space separators. -/
def isSpaceJS (c : Char) : Bool :=
  (0x9 <= c.toNat && c.toNat <= 0xd) || c = ' ' || c.toNat = 0xa0 ||
  c.toNat = 0x1680 || (0x2000 <= c.toNat && c.toNat <= 0x200a) ||
  c.toNat = 0x2028 || c.toNat = 0x2029 || c.toNat = 0x202f ||
  c.toNat = 0x205f || c.toNat = 0x3000 || c.toNat = 0xfeff

/-- JS line terminators (LF, CR, LS, PS): the dot regex token (without the
s flag) matches any character except these. -/
def isLineTerm (c : Char) : Bool :=
  c = '\n' || c = '\r' || c.toNat = 0x2028 || c.toNat = 0x2029

/-- String.prototype.split with separator a single newline character:
"a\nb" gives two parts, the empty string gives one empty part. -/
def splitOnNL : List Char → List (List Char)
  | [] => [[]]
  | '\n' :: rest => [] :: splitOnNL rest
  | c :: rest =>
    match splitOnNL rest with
    | l :: ls => (c :: l) :: ls
    | [] => [[c]]

/-- String.prototype.trim on a character list. -/
def jsTrim (cs : List Char) : List Char :=
  ((cs.dropWhile isSpaceJS).reverse.dropWhile isSpaceJS).reverse

/-- Join a list of lines with single newline characters
(Array.prototype.join with separator a newline). -/
def joinNL : List (List Char) → List Char
  | [] => []
  | [l] => l
  | l :: ls => l ++ '\n' :: joinNL ls

/-- Exact (case-sensitive) String.prototype.startsWith. -/
def startsWithChars : List Char → List Char → Bool
  | [], _ => true
  | _ :: _, [] => false
  | p :: ps, c :: cs => p = c && startsWithChars ps cs

/-! ## Backtracking regex embedding

Each combinator matches one regex fragment at the head of the input and
passes the remaining input to a continuation; alternatives produced by
greedy or lazy quantifiers are explored in the JS engine's backtracking
order via the Option orElse. -/

/-- Fragment r?n (an optional carriage return then a newline) matched at the
head of the input; returns the remaining input. -/
def afterNL : List Char → Option (List Char)
  | '\r' :: '\n' :: rest => some rest
  | '\n' :: rest => some rest
  | _ => none

/-- Helper for blankTermAt: scanning through a whitespace run, is there a
position where r?n matches?  This decides whether the fragment
s* r?n can consume a prefix of the input. -/
def scanWsForNL : List Char → Bool
  | [] => false
  | c :: rest => (afterNL (c :: rest)).isSome || (isSpaceJS c && scanWsForNL rest)

/-- The blank-line terminator used by the metadata regexes of parseTxtRfc:
the alternation of r?n r?n and r?n s* r?n, tested as a prefix of the
input.  Since nothing follows the terminator in those regexes, only the
existence of a prefix match matters. -/
def blankTermAt (cs : List Char) : Bool :=
  match afterNL cs with
  | some rest => scanWsForNL rest
  | none => false

/-- Terminator of the date regex: a single r?n. -/
def singleNLTermAt (cs : List Char) : Bool :=
  (afterNL cs).isSome

/-- Greedy s* followed by the continuation: the engine first tries to
consume the whitespace character and only on failure hands the current
position to the continuation. -/
def wsStarThen (k : List Char → Option (List Char)) : List Char → Option (List Char)
  | [] => k []
  | c :: rest =>
    if isSpaceJS c then (wsStarThen k rest) <|> k (c :: rest) else k (c :: rest)

/-- Greedy one-or-more repetition of r?n followed by the continuation. -/
def nlPlusThen (k : List Char → Option (List Char)) : List Char → Option (List Char)
  | '\r' :: '\n' :: rest => nlPlusThen k rest <|> k rest
  | '\n' :: rest => nlPlusThen k rest <|> k rest
  | _ => none

/-- Lazy capturing group dot-star-lazy followed by a terminator test: the
shortest prefix whose end position satisfies the terminator is captured.
With dotAll set the dot also consumes line terminators (the s flag). -/
def lazyDotThen (dotAll : Bool) (term : List Char → Bool) : List Char → Option (List Char)
  | [] => if term [] then some [] else none
  | c :: rest =>
    if term (c :: rest) then some []
    else if dotAll || !(isLineTerm c) then (lazyDotThen dotAll term rest).map (c :: ·)
    else none

/-- Case-insensitive literal match at the head of the input (the i flag;
the labels in question are ASCII), returning the remaining input. -/
def ciDropLabel : List Char → List Char → Option (List Char)
  | [], cs => some cs
  | _ :: _, [] => none
  | l :: ls, c :: cs => if l.toLower = c.toLower then ciDropLabel ls cs else none

/-- Alternation over a list of literal labels, in order, each followed by
the continuation; on continuation failure the next alternative is tried. -/
def tryLabels (labels : List (List Char)) (k : List Char → Option (List Char))
    (cs : List Char) : Option (List Char) :=
  match labels with
  | [] => none
  | l :: ls =>
    (match ciDropLabel l cs with
     | some rest => k rest
     | none => none) <|> tryLabels ls k cs

/-- Leftmost-match scan: the matcher is attempted at every start position
from left to right (including the end-of-input position). -/
def scanFrom (m : List Char → Option (List Char)) : List Char → Option (List Char)
  | [] => m []
  | c :: rest => m (c :: rest) <|> scanFrom m rest

/-- Embedding of the metadata regexes of parseTxtRfc, all of the shape
label(s), a colon already included in the label text, then greedy s*,
then a lazy captured group, then a terminator; returns capture group 1
of the first match. -/
def labeledGroup (labels : List (List Char)) (dotAll : Bool)
    (term : List Char → Bool) (cs : List Char) : Option (List Char) :=
  scanFrom (tryLabels labels (wsStarThen (lazyDotThen dotAll term))) cs

/-- Group 1 of the title regex: Title or Internet-Draft label, i flag only,
blank-line terminator. -/
def titleGroup (cs : List Char) : Option (List Char) :=
  labeledGroup ["Title:".data, "Internet-Draft:".data] false blankTermAt cs

/-- Group 1 of the authors regex: Author or Authors label, i and s flags,
blank-line terminator. -/
def authorsGroup (cs : List Char) : Option (List Char) :=
  labeledGroup ["Author:".data, "Authors:".data] true blankTermAt cs

/-- Group 1 of the date regex: Date or Published label, i flag only,
single-newline terminator. -/
def dateGroup (cs : List Char) : Option (List Char) :=
  labeledGroup ["Date:".data, "Published:".data] false singleNLTermAt cs

/-- Group 1 of the status regex: Status of this Memo or Category label,
i and s flags, blank-line terminator. -/
def statusGroup (cs : List Char) : Option (List Char) :=
  labeledGroup ["Status of this Memo:".data, "Category:".data] true blankTermAt cs

/-- Group 1 of the abstract regex: the literal Abstract (no colon), then
greedy s*, then one-or-more r?n, then greedy s*, then the lazy captured
group with the s flag, then the blank-line terminator. -/
def abstractGroup (cs : List Char) : Option (List Char) :=
  scanFrom
    (tryLabels ["Abstract".data]
      (wsStarThen (nlPlusThen (wsStarThen (lazyDotThen true blankTermAt))))) cs

/-! ## The numbered-section-header regex of parseTxtRfc

The pattern is anchored at both ends: one or more groups of digits
followed by a dot, then one or more whitespace characters, then the
captured rest of the line (each character outside the line-terminator
class).  The digits quantifier never usefully backtracks (a shorter
digit run leaves a digit where the dot is required), so one group is
consumed by taking the maximal digit run and then requiring a dot; the
one-or-more group repetition and the whitespace quantifier backtrack as
in the engine. -/

/-- Consume the maximal run of digits after the first (already checked)
digit. -/
def dropDigitsAux : List Char → List Char
  | [] => []
  | c :: rest => if c.isDigit then dropDigitsAux rest else c :: rest

/-- Fragment of one or more digits (maximal run, at least one). -/
def dropDigits : List Char → Option (List Char)
  | [] => none
  | c :: rest => if c.isDigit then some (dropDigitsAux rest) else none

/-- One digits-then-dot group of the section header pattern. -/
def oneNumGroup (cs : List Char) : Option (List Char) :=
  match dropDigits cs with
  | some ('.' :: rest) => some rest
  | _ => none

/-- Fragment matching the captured rest-of-line: at least one character,
none of them a line terminator, extending to the end of the line. -/
def dotPlusEnd : List Char → Option (List Char)
  | [] => none
  | c :: rest =>
    if (c :: rest).all (fun x => !(isLineTerm x)) then some (c :: rest) else none

/-- Greedy s* then the captured rest-of-line, with backtracking: prefer to
extend the whitespace run, fall back to starting the capture here. -/
def wsStarDotEnd : List Char → Option (List Char)
  | [] => none
  | c :: rest =>
    if isSpaceJS c then (wsStarDotEnd rest <|> dotPlusEnd (c :: rest))
    else dotPlusEnd (c :: rest)

/-- The tail of the section header pattern after the numeric groups: one or
more whitespace characters then the captured rest of the line. -/
def headerTail : List Char → Option (List Char)
  | [] => none
  | c :: rest => if isSpaceJS c then wsStarDotEnd rest else none

/-- Greedy one-or-more repetition of the digits-then-dot group, each repeat
count tried from most to fewest, followed by the header tail.  Fuel-based
structural recursion: every group consumes at least two characters, so fuel
equal to the input length never runs out while a group can still match. -/
def numGroupsTailF : Nat → List Char → Option (List Char)
  | 0, _ => none
  | fuel + 1, cs =>
    match oneNumGroup cs with
    | none => none
    | some rest => numGroupsTailF fuel rest <|> headerTail rest

/-- Capture group 1 of the section header regex applied to one line, the
trailing section title text, or none when the line is not a section
header. -/
def matchSectionHeader (line : List Char) : Option (List Char) :=
  numGroupsTailF line.length line

/-! ## The line-scanning section loop of parseTxtRfc -/

/-- Loop state of the section scan: the current section title (already
trimmed at assignment, null when no header has been seen), the content
lines accumulated for it, and the sections emitted so far. -/
structure TxtState where
  cur : Option (List Char)
  content : List (List Char)
  secs : List RfcSection
deriving Repr

/-- One section emitted by the text pipeline: the trimmed title and the
content lines joined with newlines; the text pipeline never sets
subsections. -/
def mkTxtSection (title : List Char) (content : List (List Char)) : RfcSection :=
  { title := String.mk title, content := String.mk (joinNL content), subsections := none }

/-- One iteration of the scanning loop of parseTxtRfc: a header line
flushes the previous section when it exists and accumulated at least one
content line, then starts a new section; any other line is appended to
the current section when one is open and discarded otherwise. -/
def txtStep (st : TxtState) (line : List Char) : TxtState :=
  match matchSectionHeader line with
  | some t =>
    let secs :=
      match st.cur, st.content with
      | some title, c :: cs => st.secs ++ [mkTxtSection title (c :: cs)]
      | _, _ => st.secs
    { cur := some (jsTrim t), content := [], secs := secs }
  | none =>
    match st.cur with
    | some _ => { st with content := st.content ++ [line] }
    | none => st

/-- End-of-input flush: the final in-progress section is emitted when it
exists and is non-empty. -/
def txtFinish (st : TxtState) : List RfcSection :=
  match st.cur, st.content with
  | some title, c :: cs => st.secs ++ [mkTxtSection title (c :: cs)]
  | _, _ => st.secs

/-- The whole section scan of parseTxtRfc over the split lines. -/
def txtScan (lines : List (List Char)) : List RfcSection :=
  txtFinish (lines.foldl txtStep { cur := none, content := [], secs := [] })

/-! ## The text pipeline parseTxtRfc -/

/-- Map every newline character to a space
(String.prototype.replace of the global newline pattern). -/
def replaceNLBySpace (cs : List Char) : List Char :=
  cs.map (fun c => if c = '\n' then ' ' else c)

/-- Embedding of RfcService.parseTxtRfc: metadata fields are extracted by
the labeled regexes (a field is used only when the match exists and its
captured group is non-empty, mirroring the truthiness tests on the match
object and on group 1), sections by the line scan, and fullText is the
unmodified input. -/
def parseTxtRfc (text : String) (rfcNumber : String) (url : String) : RfcContent :=
  let cs := text.data
  let title :=
    match titleGroup cs with
    | some (c :: g) => String.mk (jsTrim (c :: g))
    | _ => "RFC " ++ rfcNumber
  let authors :=
    match authorsGroup cs with
    | some (c :: g) =>
      (splitOnNL (c :: g)).foldl
        (fun acc l =>
          let t := jsTrim l
          if t ≠ [] && !(startsWithChars "Authors:".data t) then acc ++ [String.mk t]
          else acc) []
    | _ => []
  let date :=
    match dateGroup cs with
    | some (c :: g) => String.mk (jsTrim (c :: g))
    | _ => ""
  let status :=
    match statusGroup cs with
    | some (c :: g) => String.mk (jsTrim (replaceNLBySpace (c :: g)))
    | _ => ""
  let abstract :=
    match abstractGroup cs with
    | some (c :: g) => String.mk (jsTrim (replaceNLBySpace (c :: g)))
    | _ => ""
  { metadata :=
      { number := rfcNumber
        title := title
        authors := authors
        date := date
        status := status
        abstract := abstract
        url := url }
    sections := txtScan (splitOnNL cs)
    fullText := text }

/-! ## DOM model for the HTML pipeline

The structural-tree collaborator (JSDOM) is modelled by a tree of
element and text nodes; an element carries its tag name and class list.
querySelectorAll returns matching descendant elements in document
(pre-order) order, and querySelector with a selector list returns the
first descendant in document order matching any selector in the list. -/

inductive HtmlNode where
  | text (s : String)
  | elem (tag : String) (classes : List String) (children : List HtmlNode)
deriving Repr

mutual

/-- Node.textContent: concatenation of all text node data in the subtree. -/
def textContent : HtmlNode → String
  | .text s => s
  | .elem _ _ cs => textContentList cs

def textContentList : List HtmlNode → String
  | [] => ""
  | n :: ns => textContent n ++ textContentList ns

end

mutual

/-- All element nodes of a subtree including its root, in document
(pre-order) order. -/
def selfAndElems : HtmlNode → List HtmlNode
  | .text _ => []
  | .elem t c cs => .elem t c cs :: elemsList cs

def elemsList : List HtmlNode → List HtmlNode
  | [] => []
  | n :: ns => selfAndElems n ++ elemsList ns

end

/-- All element descendants of a node, excluding the node itself, in
document order: the search set of querySelectorAll on that node. -/
def descElems : HtmlNode → List HtmlNode
  | .text _ => []
  | .elem _ _ cs => elemsList cs

/-- Tag name of a node (empty for text nodes, which never match a tag
selector). -/
def tagOf : HtmlNode → String
  | .text _ => ""
  | .elem t _ _ => t

/-- Membership of a class in a node's class list. -/
def hasClass (c : String) : HtmlNode → Bool
  | .text _ => false
  | .elem _ cls _ => cls.contains c

/-- querySelectorAll with a tag selector. -/
def queryTag (root : HtmlNode) (t : String) : List HtmlNode :=
  (descElems root).filter (fun n => tagOf n = t)

/-- querySelector with a list of tag selectors: the first descendant in
document order whose tag is any of the given tags. -/
def firstTagOf (root : HtmlNode) (tags : List String) : Option HtmlNode :=
  ((descElems root).filter (fun n => tags.contains (tagOf n))).head?

/-- querySelector with a single class selector: the first descendant in
document order carrying the class. -/
def firstWithClass (root : HtmlNode) (c : String) : Option HtmlNode :=
  ((descElems root).filter (hasClass c)).head?

mutual

/-- The descendant-combinator query for the authors selector: elements of
class author having a proper ancestor of class authors, in document order.
The flag records whether an ancestor of class authors has been passed. -/
def authorNodes (under : Bool) : HtmlNode → List HtmlNode
  | .text _ => []
  | .elem t cls cs =>
    (if under && (cls.contains "author") then [HtmlNode.elem t cls cs] else []) ++
      authorNodesList (under || cls.contains "authors") cs

def authorNodesList (under : Bool) : List HtmlNode → List HtmlNode
  | [] => []
  | n :: ns => authorNodes under n ++ authorNodesList under ns

end

/-- Serialized start-tag class attribute. -/
def classAttr : List String → String
  | [] => ""
  | c :: cs => " class=\"" ++ String.intercalate " " (c :: cs) ++ "\""

mutual

/-- Markup serialization of a node, used for Element.innerHTML (character
escaping and void elements are not modelled; no claim depends on the exact
serialized text). -/
def serializeNode : HtmlNode → String
  | .text s => s
  | .elem t cls cs =>
    "<" ++ t ++ classAttr cls ++ ">" ++ serializeList cs ++ "</" ++ t ++ ">"

def serializeList : List HtmlNode → String
  | [] => ""
  | n :: ns => serializeNode n ++ serializeList ns

end

/-- Element.innerHTML: serialization of the children. -/
def innerHTML : HtmlNode → String
  | .text _ => ""
  | .elem _ _ cs => serializeList cs

/-- String.prototype.trim on a String. -/
def trimS (s : String) : String :=
  String.mk (jsTrim s.data)

/-! ## The HTML pipeline parseHtmlRfc -/

/-- Title of a candidate (sub)section element: trimmed text of the first
descendant in document order among the given heading tags, or empty. -/
def headingTitle (el : HtmlNode) (tags : List String) : String :=
  match firstTagOf el tags with
  | some h => trimS (textContent h)
  | none => ""

/-- The subsections collected for one section element: every section
descendant is a candidate, kept only when its h3-h4-h5 heading search
yields non-empty trimmed text. -/
def collectSubsections (secEl : HtmlNode) : List RfcSubsection :=
  (queryTag secEl "section").foldl
    (fun acc subEl =>
      let st := headingTitle subEl ["h3", "h4", "h5"]
      if st ≠ "" then acc ++ [{ title := st, content := innerHTML subEl }] else acc) []

/-- The sections collected by parseHtmlRfc: every section element of the
document is a candidate, kept only when its h2-h3-h4 heading search yields
non-empty trimmed text; content is the element's inner markup and the
subsections property is set only when non-empty. -/
def collectSections (dom : HtmlNode) : List RfcSection :=
  (queryTag dom "section").foldl
    (fun acc secEl =>
      let sectionTitle := headingTitle secEl ["h2", "h3", "h4"]
      let subs := collectSubsections secEl
      if sectionTitle ≠ "" then
        acc ++ [{ title := sectionTitle
                  content := innerHTML secEl
                  subsections := if subs ≠ [] then some subs else none }]
      else acc) []

/-- Embedding of RfcService.parseHtmlRfc over the parsed document tree:
metadata from tag and class queries with empty-or-placeholder defaults,
sections from the section-element scan, fullText from the trimmed body
text. -/
def parseHtmlRfc (dom : HtmlNode) (rfcNumber : String) (url : String) : RfcContent :=
  let title :=
    match (queryTag dom "h1").head? with
    | some h => let s := trimS (textContent h); if s = "" then "RFC " ++ rfcNumber else s
    | none => "RFC " ++ rfcNumber
  let authors :=
    (authorNodes false dom).foldl
      (fun acc a =>
        let t := trimS (textContent a)
        if t ≠ "" then acc ++ [t] else acc) []
  let date :=
    match firstWithClass dom "pubdate" with
    | some e => trimS (textContent e)
    | none => ""
  let abstract :=
    match firstWithClass dom "abstract" with
    | some e => trimS (textContent e)
    | none => ""
  let status :=
    match firstWithClass dom "status" with
    | some e => trimS (textContent e)
    | none => ""
  let fullText :=
    match (queryTag dom "body").head? with
    | some b => trimS (textContent b)
    | none => ""
  { metadata :=
      { number := rfcNumber
        title := title
        authors := authors
        date := date
        status := status
        abstract := abstract
        url := url }
    sections := collectSections dom
    fullText := fullText }

/-! ## The retrieval orchestrator fetchRfc

The transport collaborator (axios) is abstracted by an environment
giving, per identifier, the outcome of the HTML-variant attempt (the
whole try block body: fetching the HTML URL and parsing the response;
a fetch failure and a parse exception are indistinguishable at the
catch site) and the outcome of the text-variant fetch.  The instance
cache (a JS Map from identifier to document) is threaded explicitly,
and the list of URLs passed to the transport during the call is
returned as a trace, so that which variants were attempted and how
often is observable. -/

def baseUrl : String := "https://www.ietf.org/rfc"

/-- The text-variant URL built by fetchRfc. -/
def txtUrlOf (rfcNumber : String) : String :=
  baseUrl ++ "/rfc" ++ rfcNumber ++ ".txt"

/-- The HTML-variant URL built by fetchRfc. -/
def htmlUrlOf (rfcNumber : String) : String :=
  baseUrl ++ "/rfc" ++ rfcNumber ++ "/"

/-- Transport environment: outcome of the HTML-variant attempt (fetch plus
parse) and of the text-variant fetch, per identifier.  Failure causes are
carried as the strings they are interpolated to in the composite error
message. -/
structure FetchEnv where
  html : String → Except String RfcContent
  txt : String → Except String String

/-- The per-service cache, a JS Map keyed by identifier.  Map.get of the
most recent Map.set wins, which an association list with leftmost lookup
models. -/
def Cache := List (String × RfcContent)

/-- Map.prototype.get (combined with the Map.prototype.has guard). -/
def cacheGet (m : Cache) (k : String) : Option RfcContent :=
  match m with
  | [] => none
  | (k', v) :: rest => if k' = k then some v else cacheGet rest k

/-- Map.prototype.set. -/
def cacheSet (m : Cache) (k : String) (v : RfcContent) : Cache :=
  (k, v) :: m

/-- The composite error message thrown when both variants fail, naming the
identifier and interpolating the text-variant cause. -/
def compositeMsg (rfcNumber cause : String) : String :=
  "Failed to fetch RFC " ++ rfcNumber ++ ": " ++ cause

/-- Embedding of RfcService.fetchRfc: return the cached document when
present; otherwise attempt the HTML variant, on its success cache and
return the parsed document; on its failure attempt the text variant,
parse its body via parseTxtRfc under the text URL, cache and return; when
both fail, throw the composite error and leave the cache unchanged.  The
third component lists the URLs fetched during the call, in order. -/
def fetchRfc (env : FetchEnv) (cache : Cache) (rfcNumber : String) :
    Except String RfcContent × Cache × List String :=
  match cacheGet cache rfcNumber with
  | some rfc => (.ok rfc, cache, [])
  | none =>
    match env.html rfcNumber with
    | .ok rfc => (.ok rfc, cacheSet cache rfcNumber rfc, [htmlUrlOf rfcNumber])
    | .error _ =>
      match env.txt rfcNumber with
      | .ok body =>
        let rfc := parseTxtRfc body rfcNumber (txtUrlOf rfcNumber)
        (.ok rfc, cacheSet cache rfcNumber rfc,
          [htmlUrlOf rfcNumber, txtUrlOf rfcNumber])
      | .error txtError =>
        (.error (compositeMsg rfcNumber txtError), cache,
          [htmlUrlOf rfcNumber, txtUrlOf rfcNumber])

/-! ## Helper lemmas -/

/-- Folding the subsection-collecting step preserves non-emptiness of all
collected titles. -/
theorem sub_titles_nonempty_foldl :
    ∀ (l : List HtmlNode) (acc : List RfcSubsection),
      (∀ sub ∈ acc, sub.title ≠ "") →
      ∀ sub ∈ l.foldl (fun acc2 subEl =>
          let st := headingTitle subEl ["h3", "h4", "h5"]
          if st ≠ "" then acc2 ++ [{ title := st, content := innerHTML subEl }] else acc2)
        acc, sub.title ≠ "" := by
  intro l
  induction l with
  | nil => intro acc h; simpa using h
  | cons a as ih =>
    intro acc h
    rw [List.foldl_cons]
    apply ih
    dsimp only
    split
    · intro sub hsub
      rcases List.mem_append.1 hsub with hm | hm
      · exact h sub hm
      · rcases List.mem_singleton.1 hm with rfl
        assumption
    · exact h

/-- Every subsection collected for a section element has a non-empty
title. -/
theorem collectSubsections_title_nonempty (secEl : HtmlNode) :
    ∀ sub ∈ collectSubsections secEl, sub.title ≠ "" := by
  unfold collectSubsections
  exact sub_titles_nonempty_foldl _ [] (by simp)

/-- Folding the section-collecting step preserves non-emptiness of all
collected section and subsection titles. -/
theorem sec_titles_nonempty_foldl :
    ∀ (l : List HtmlNode) (acc : List RfcSection),
      (∀ s ∈ acc, s.title ≠ "" ∧
        ∀ subs sub, s.subsections = some subs → sub ∈ subs → sub.title ≠ "") →
      ∀ s ∈ l.foldl (fun acc2 secEl =>
          let sectionTitle := headingTitle secEl ["h2", "h3", "h4"]
          let subs := collectSubsections secEl
          if sectionTitle ≠ "" then
            acc2 ++ [{ title := sectionTitle
                       content := innerHTML secEl
                       subsections := if subs ≠ [] then some subs else none }]
          else acc2) acc,
        s.title ≠ "" ∧
          ∀ subs sub, s.subsections = some subs → sub ∈ subs → sub.title ≠ "" := by
  intro l
  induction l with
  | nil => intro acc h; simpa using h
  | cons a as ih =>
    intro acc h
    rw [List.foldl_cons]
    apply ih
    dsimp only
    split
    · intro s hs
      rcases List.mem_append.1 hs with hm | hm
      · exact h s hm
      · rcases List.mem_singleton.1 hm with rfl
        refine ⟨by assumption, ?_⟩
        intro subs sub hsubs hsub
        by_cases hne : collectSubsections a = []
        · simp [hne] at hsubs
        · simp only [ne_eq, hne, not_false_eq_true, if_true] at hsubs
          cases hsubs
          exact collectSubsections_title_nonempty a sub hsub
    · exact h

/-- Every section collected by the HTML pipeline has a non-empty title, and
so does every subsection it carries. -/
theorem collectSections_title_nonempty (dom : HtmlNode) :
    ∀ s ∈ collectSections dom, s.title ≠ "" ∧
      ∀ subs sub, s.subsections = some subs → sub ∈ subs → sub.title ≠ "" := by
  unfold collectSections
  exact sec_titles_nonempty_foldl _ [] (by simp)

/-- A line on which the header pattern fails leaves a header-less scan state
unchanged. -/
theorem txtStep_nomatch {st : TxtState} {l : List Char}
    (hm : matchSectionHeader l = none) (hc : st.cur = none) :
    txtStep st l = st := by
  obtain ⟨cur, content, secs⟩ := st
  cases hc
  simp [txtStep, hm]

/-- When no line of the input matches the header pattern, the scanning loop
never leaves its initial state. -/
theorem foldl_txtStep_nomatch :
    ∀ (lines : List (List Char)), (∀ l ∈ lines, matchSectionHeader l = none) →
      ∀ (st : TxtState), st.cur = none → lines.foldl txtStep st = st := by
  intro lines
  induction lines with
  | nil => intro _ st _; rfl
  | cons l ls ih =>
    intro h st hc
    have hstep : txtStep st l = st := txtStep_nomatch (h l (by simp)) hc
    simpa [hstep] using ih (fun x hx => h x (by simp [hx])) st hc

/-! ## Claims -/

/-- C9: both parsers are pure functions of their input, identifier and URL:
parsing the same input twice yields structurally equal documents, with no
hidden mutable or global state influencing the result. -/
theorem parse_deterministic (dom : HtmlNode) (text n u : String) :
    parseHtmlRfc dom n u = parseHtmlRfc dom n u ∧
    parseTxtRfc text n u = parseTxtRfc text n u :=
  ⟨rfl, rfl⟩

/-- C7: for every text input none of whose lines matches the
numbered-heading pattern, the text parser emits zero sections and returns
the unmodified input as fullText. -/
theorem parseTxt_no_headers (text n u : String)
    (h : ∀ line ∈ splitOnNL text.data, matchSectionHeader line = none) :
    (parseTxtRfc text n u).sections = [] ∧ (parseTxtRfc text n u).fullText = text := by
  constructor
  · show txtScan (splitOnNL text.data) = []
    unfold txtScan
    rw [foldl_txtStep_nomatch (splitOnNL text.data) h _ rfl]
    rfl
  · rfl

/-- Witness for C7 at a concrete headerless input. -/
theorem parseTxt_no_headers_witness :
    (parseTxtRfc "hello world\nno numbered headings here" "9" "u").sections = [] ∧
    (parseTxtRfc "hello world\nno numbered headings here" "9" "u").fullText =
      "hello world\nno numbered headings here" :=
  parseTxt_no_headers "hello world\nno numbered headings here" "9" "u" (by decide)

/-- C5: a numbered header line that accumulates no content before the next
header is dropped: the scan of a header immediately followed by another
header behaves exactly as the scan starting at the second header, and on
the concrete input of the claim no section titled Intro is emitted while
Background appears once it accumulates content. -/
theorem txt_empty_header_dropped :
    (∀ (h₁ h₂ : List Char) (rest : List (List Char)) (t₁ t₂ : List Char),
      matchSectionHeader h₁ = some t₁ → matchSectionHeader h₂ = some t₂ →
        txtScan (h₁ :: h₂ :: rest) = txtScan (h₂ :: rest)) ∧
    (∀ n u : String,
      (parseTxtRfc "1. Intro\n2. Background" n u).sections = [] ∧
      (parseTxtRfc "1. Intro\n2. Background\nsome text" n u).sections =
        [{ title := "Background", content := "some text", subsections := none }]) := by
  constructor
  · intro h₁ h₂ rest t₁ t₂ m₁ m₂
    unfold txtScan
    simp only [List.foldl_cons]
    have e1 : txtStep ⟨none, [], []⟩ h₁ = ⟨some (jsTrim t₁), [], []⟩ := by
      simp [txtStep, m₁]
    have e2 : txtStep ⟨some (jsTrim t₁), [], []⟩ h₂ = ⟨some (jsTrim t₂), [], []⟩ := by
      simp [txtStep, m₂]
    have e3 : txtStep ⟨none, [], []⟩ h₂ = ⟨some (jsTrim t₂), [], []⟩ := by
      simp [txtStep, m₂]
    rw [e1, e2, e3]
  · intro n u
    constructor
    · show txtScan (splitOnNL ("1. Intro\n2. Background".data)) = []
      decide
    · show txtScan (splitOnNL ("1. Intro\n2. Background\nsome text".data)) =
        [{ title := "Background", content := "some text", subsections := none }]
      decide

/-- Witness for C5 at concrete header lines. -/
theorem txt_empty_header_dropped_witness :
    txtScan ["1. A".data, "2. B".data] = txtScan ["2. B".data] ∧
    (parseTxtRfc "1. Intro\n2. Background" "1" "u").sections = [] :=
  ⟨txt_empty_header_dropped.1 "1. A".data "2. B".data [] "A".data "B".data
      (by decide) (by decide),
    (txt_empty_header_dropped.2 "1" "u").1⟩

/-- C3 counterexample: in the text pipeline, the header line consisting of a
numeric group followed by two spaces matches the header pattern with a
whitespace-only captured title, which trims to the empty string; once a
content line accumulates, a section with an empty title is emitted, so the
claimed invariant fails. -/
theorem titles_nonempty_counterexample :
    (parseTxtRfc "1.  \nbody" "1" "u").sections =
      [{ title := "", content := "body", subsections := none }] := by
  decide

/-- C3 (amended): in the HTML pipeline every emitted section and every
emitted subsection has a non-empty title; the text pipeline does not
guarantee this. -/
theorem html_titles_nonempty (dom : HtmlNode) (n u : String) :
    ∀ s ∈ (parseHtmlRfc dom n u).sections, s.title ≠ "" ∧
      ∀ subs sub, s.subsections = some subs → sub ∈ subs → sub.title ≠ "" :=
  collectSections_title_nonempty dom

/-- Witness for C3 (amended) at a concrete document. -/
theorem html_titles_nonempty_witness :
    ({ title := "T", content := "<h2>T</h2>", subsections := none } : RfcSection).title ≠ "" :=
  (html_titles_nonempty
    (.elem "html" [] [.elem "body" []
      [.elem "section" [] [.elem "h2" [] [.text "T"]]]]) "1" "u"
    { title := "T", content := "<h2>T</h2>", subsections := none } (by decide)).1

/-- The document-order family for the heading search of C4: a section
element whose first child is an h3 and whose second child is an h2. -/
def headingOrderDoc (a b : String) : HtmlNode :=
  .elem "html" [] [.elem "body" []
    [.elem "section" [] [.elem "h3" [] [.text a], .elem "h2" [] [.text b]]]]

/-- C4 counterexample: the heading lookup uses a grouped selector, which
returns the first matching descendant in document order, not the
highest-ranked heading; a section element containing an h3 with text A and
a later h2 with text B is titled A, where the claim requires the h2 text
B. -/
theorem heading_rank_counterexample :
    (parseHtmlRfc (headingOrderDoc "A" "B") "1" "u").sections.map RfcSection.title = ["A"] ∧
    "A" ≠ "B" := by
  constructor
  · decide
  · decide

/-- C4 (amended): the emitted title of a section element is the trimmed
text of its first heading descendant in document order among h2, h3 and h4;
in particular a section whose h3 precedes its h2 is titled by the h3 text,
whatever the two heading texts are. -/
theorem heading_docOrder (a b n u : String) (h : trimS a ≠ "") :
    (parseHtmlRfc (headingOrderDoc a b) n u).sections.map RfcSection.title = [trimS a] := by
  show (collectSections (headingOrderDoc a b)).map RfcSection.title = [trimS a]
  simp only [collectSections, headingOrderDoc, queryTag, descElems, elemsList, selfAndElems,
    tagOf, List.filter, List.foldl, headingTitle, firstTagOf, collectSubsections,
    textContent, textContentList]
  simp [h, textContent, textContentList, String.append_empty]

/-- Witness for C4 (amended) at concrete heading texts. -/
theorem heading_docOrder_witness :
    (parseHtmlRfc (headingOrderDoc " A " "B") "1" "u").sections.map RfcSection.title =
      [trimS " A "] :=
  heading_docOrder " A " "B" "1" "u" (by decide)

/-- C6 counterexample: the abstract regex searches for the substring
Abstract anywhere, not for a line exactly equal to it: on an input none of
whose lines is (case-insensitively) exactly Abstract, extraction still
yields a value, where the claim requires it to find nothing. -/
theorem abstract_line_counterexample :
    ((splitOnNL ("NotAnAbstract\n\nFoo\n\nBar".data)).all
        (fun l => l.map Char.toLower ≠ "abstract".data)) = true ∧
    (parseTxtRfc "NotAnAbstract\n\nFoo\n\nBar" "1" "u").metadata.abstract = "Foo" := by
  constructor
  · decide
  · show (parseTxtRfc "NotAnAbstract\n\nFoo\n\nBar" "1" "u").metadata.abstract = "Foo"
    decide

/-- C6 (amended): abstract extraction looks for the substring Abstract
(case-insensitively) followed by line break(s), skips the blank line(s) and
surrounding whitespace, and takes text up to the next blank-line boundary
with internal line breaks collapsed to spaces; on the claim's example input
it yields exactly the middle paragraph, and the trigger need not be a whole
line. -/
theorem abstract_extraction :
    (parseTxtRfc "Abstract\n\nThis document specifies...\n\nStatus of this Memo..." "1" "u").metadata.abstract
      = "This document specifies..." ∧
    (parseTxtRfc "See the Abstract\n\nFoo\n\nBar" "1" "u").metadata.abstract = "Foo" := by
  constructor
  · decide
  · decide

/-- C8 counterexample: a non-empty HTML input whose body contains no text
yields an empty fullText in the HTML pipeline, violating the claimed
invariant. -/
theorem fullText_nonempty_counterexample :
    serializeNode (.elem "html" [] [.elem "body" [] [.elem "b" [] []]]) ≠ "" ∧
    (parseHtmlRfc (.elem "html" [] [.elem "body" [] [.elem "b" [] []]]) "1" "u").fullText
      = "" := by
  constructor
  · decide
  · decide

/-- C8 (amended): in the text pipeline fullText is the unmodified input, so
it is non-empty whenever the raw input is, and it is populated independently
of whether any sections were detected; the HTML pipeline's fullText is the
trimmed body text, which can be empty for non-empty markup input. -/
theorem txt_fullText_nonempty (text n u : String) (h : text ≠ "") :
    (parseTxtRfc text n u).fullText = text ∧ (parseTxtRfc text n u).fullText ≠ "" :=
  ⟨rfl, h⟩

/-- Witness for C8 (amended) at a concrete input. -/
theorem txt_fullText_nonempty_witness :
    (parseTxtRfc "x" "1" "u").fullText = "x" ∧ (parseTxtRfc "x" "1" "u").fullText ≠ "" :=
  txt_fullText_nonempty "x" "1" "u" (by decide)

/-- A transport environment in which both variants fail for every
identifier. -/
def envBothFail : FetchEnv :=
  { html := fun _ => .error "html down", txt := fun _ => .error "txt down" }

/-- A transport environment in which the HTML variant fails and the text
variant succeeds for every identifier. -/
def envTxtOnly : FetchEnv :=
  { html := fun _ => .error "html down", txt := fun _ => .ok "1. Intro\nBody" }

/-- C1: on a fresh identifier for which both variant attempts fail,
fetchRfc throws the single composite error naming the identifier and
wrapping the text variant's cause; and every error fetchRfc ever raises is
of exactly this form. -/
theorem fetchRfc_composite_failure :
    (∀ (env : FetchEnv) (cache : Cache) (n e₁ e₂ : String),
      cacheGet cache n = none → env.html n = .error e₁ → env.txt n = .error e₂ →
        fetchRfc env cache n =
          (.error (compositeMsg n e₂), cache, [htmlUrlOf n, txtUrlOf n])) ∧
    (∀ (env : FetchEnv) (cache : Cache) (n msg : String) (c : Cache) (t : List String),
      fetchRfc env cache n = (.error msg, c, t) →
        ∃ e, env.txt n = .error e ∧ msg = compositeMsg n e) := by
  constructor
  · intro env cache n e₁ e₂ hc hh ht
    simp [fetchRfc, hc, hh, ht]
  · intro env cache n msg c t h
    unfold fetchRfc at h
    cases hc : cacheGet cache n with
    | some rfc => rw [hc] at h; cases h
    | none =>
      rw [hc] at h
      cases hh : env.html n with
      | ok rfc => rw [hh] at h; cases h
      | error e₁ =>
        rw [hh] at h
        cases ht : env.txt n with
        | ok body => rw [ht] at h; cases h
        | error e₂ =>
          rw [ht] at h
          cases h
          exact ⟨e₂, rfl, rfl⟩

/-- Witness for C1 at a concrete environment and empty cache. -/
theorem fetchRfc_composite_failure_witness :
    fetchRfc envBothFail [] "2616" =
      (.error (compositeMsg "2616" "txt down"), [],
        [htmlUrlOf "2616", txtUrlOf "2616"]) :=
  fetchRfc_composite_failure.1 envBothFail [] "2616" "html down" "txt down" rfl rfl rfl

/-- C2: on a fresh identifier whose HTML-variant attempt fails (for any
reason: failed fetch or a parse exception, both surfacing as the error of
the attempt) and whose text fetch succeeds, fetchRfc returns the document
produced by the text pipeline under the text-variant URL, the HTML-side
error does not propagate, and the trace shows each variant URL fetched
exactly once (the two URLs being distinct). -/
theorem fetchRfc_text_fallback (env : FetchEnv) (cache : Cache) (n e body : String)
    (hc : cacheGet cache n = none) (hh : env.html n = .error e)
    (ht : env.txt n = .ok body) :
    fetchRfc env cache n =
      (.ok (parseTxtRfc body n (txtUrlOf n)),
        cacheSet cache n (parseTxtRfc body n (txtUrlOf n)),
        [htmlUrlOf n, txtUrlOf n]) ∧
    (parseTxtRfc body n (txtUrlOf n)).metadata.url = txtUrlOf n ∧
    htmlUrlOf n ≠ txtUrlOf n := by
  refine ⟨by simp [fetchRfc, hc, hh, ht], rfl, ?_⟩
  intro heq
  have := congrArg String.length heq
  simp [htmlUrlOf, txtUrlOf, baseUrl, String.length_append] at this
  exact absurd this (by decide)

/-- Witness for C2 at a concrete environment and empty cache. -/
theorem fetchRfc_text_fallback_witness :
    fetchRfc envTxtOnly [] "2616" =
      (.ok (parseTxtRfc "1. Intro\nBody" "2616" (txtUrlOf "2616")),
        cacheSet [] "2616" (parseTxtRfc "1. Intro\nBody" "2616" (txtUrlOf "2616")),
        [htmlUrlOf "2616", txtUrlOf "2616"]) ∧
    (parseTxtRfc "1. Intro\nBody" "2616" (txtUrlOf "2616")).metadata.url =
      txtUrlOf "2616" ∧
    htmlUrlOf "2616" ≠ txtUrlOf "2616" :=
  fetchRfc_text_fallback envTxtOnly [] "2616" "html down" "1. Intro\nBody" rfl rfl rfl

/-- C10: fetchRfc memoizes successes and never caches failures: a
successful call leaves the document in the cache under its identifier; a
call on a cached identifier returns the cached document without touching
the transport; a call in which both variants fail leaves the cache
unchanged while still attempting both variants; and no call disturbs the
cached document of another identifier. -/
theorem fetchRfc_cache_behavior :
    (∀ (env : FetchEnv) (cache : Cache) (n : String) rfc (c : Cache) (t : List String),
      fetchRfc env cache n = (.ok rfc, c, t) → cacheGet c n = some rfc) ∧
    (∀ (env : FetchEnv) (cache : Cache) (n : String) rfc,
      cacheGet cache n = some rfc → fetchRfc env cache n = (.ok rfc, cache, [])) ∧
    (∀ (env : FetchEnv) (cache : Cache) (n msg : String) (c : Cache) (t : List String),
      fetchRfc env cache n = (.error msg, c, t) →
        c = cache ∧ t = [htmlUrlOf n, txtUrlOf n]) ∧
    (∀ (env : FetchEnv) (cache : Cache) (m n : String) rfc
        (r : Except String RfcContent) (c : Cache) (t : List String),
      fetchRfc env cache m = (r, c, t) → cacheGet cache n = some rfc →
        cacheGet c n = some rfc) := by
  refine ⟨?_, ?_, ?_, ?_⟩
  · intro env cache n rfc c t h
    unfold fetchRfc at h
    cases hc : cacheGet cache n with
    | some r => rw [hc] at h; cases h; exact hc
    | none =>
      rw [hc] at h
      cases hh : env.html n with
      | ok r =>
        rw [hh] at h; cases h
        simp [cacheGet, cacheSet]
      | error e₁ =>
        rw [hh] at h
        cases ht : env.txt n with
        | ok body =>
          rw [ht] at h; cases h
          simp [cacheGet, cacheSet]
        | error e₂ => rw [ht] at h; cases h
  · intro env cache n rfc h
    simp [fetchRfc, h]
  · intro env cache n msg c t h
    unfold fetchRfc at h
    cases hc : cacheGet cache n with
    | some r => rw [hc] at h; cases h
    | none =>
      rw [hc] at h
      cases hh : env.html n with
      | ok r => rw [hh] at h; cases h
      | error e₁ =>
        rw [hh] at h
        cases ht : env.txt n with
        | ok body => rw [ht] at h; cases h
        | error e₂ => rw [ht] at h; cases h; exact ⟨rfl, rfl⟩
  · intro env cache m n rfc r c t h hn
    unfold fetchRfc at h
    cases hc : cacheGet cache m with
    | some v => rw [hc] at h; cases h; exact hn
    | none =>
      have hmn : m ≠ n := by
        intro he; rw [he, hn] at hc; cases hc
      rw [hc] at h
      cases hh : env.html m with
      | ok v =>
        rw [hh] at h; cases h
        simpa [cacheGet, cacheSet, hmn] using hn
      | error e₁ =>
        rw [hh] at h
        cases ht : env.txt m with
        | ok body =>
          rw [ht] at h; cases h
          simpa [cacheGet, cacheSet, hmn] using hn
        | error e₂ => rw [ht] at h; cases h; exact hn

/-- Witness for C10: a successful fallback call caches its document, and a
second call on the now-populated cache returns it with no fetch. -/
theorem fetchRfc_cache_behavior_witness :
    fetchRfc envBothFail
        [("2616", parseTxtRfc "1. Intro\nBody" "2616" (txtUrlOf "2616"))] "2616" =
      (.ok (parseTxtRfc "1. Intro\nBody" "2616" (txtUrlOf "2616")),
        [("2616", parseTxtRfc "1. Intro\nBody" "2616" (txtUrlOf "2616"))], []) :=
  fetchRfc_cache_behavior.2.1 envBothFail
    [("2616", parseTxtRfc "1. Intro\nBody" "2616" (txtUrlOf "2616"))] "2616"
    (parseTxtRfc "1. Intro\nBody" "2616" (txtUrlOf "2616")) rfl

end Rfc
